import Mathlib

/-!
Verification development for the REPLAY-ENGINE repository.

The repository contains two closely related source trees; the replay loop of
`src/replay/deterministic_replayer.py` is identical in both, the session
registry with `update_session_status` / `update_session_progress` is the one
in `replay engine/src/replay/session_manager.py`, the detector is
`replay-engine/src/replay/bug_detector.py`, and the broker adapter is
`replay engine/src/adapters/redis_stream_adapter.py`.

Modelling conventions:
* Redis stream ids `"<millis>-<seq>"` are modelled as naturals carrying the
  same total order; `"0"` is the id 0 sentinel and `"+"`/no bound is `none`.
* Python `float` quantities (speed, progress, sleep durations) are modelled
  as rationals; no claim below depends on floating point rounding.
* `datetime` values are modelled as microseconds since the Unix epoch; a
  naive datetime (no UTC offset) is modelled at offset 0 (no claim mixes
  naive and aware timestamps in one comparison).
* Event field dictionaries are association lists with first-match lookup.
-/

namespace ReplayEngine

/-- Event fields: the key/value map carried by a broker message. -/
def Fields := List (String × String)
deriving DecidableEq, Inhabited

/-- `dict.get(k)`: first binding for `k`, if any. -/
def fget (m : Fields) (k : String) : Option String :=
  match m with
  | [] => none
  | (k', v) :: rest => if k' = k then some v else fget rest k

/-- `dict.get(k, d)`: lookup with a default. -/
def fgetD (m : Fields) (k d : String) : String :=
  (fget m k).getD d

/-! ### `str.replace("Z", "+00:00")` -/

/-- Character-level model of `s.replace("Z", "+00:00")` (the needle is a
single character, so character recursion is exact). -/
def replaceZChars : List Char → List Char
  | [] => []
  | c :: rest =>
    if c = 'Z' then '+' :: '0' :: '0' :: ':' :: '0' :: '0' :: replaceZChars rest
    else c :: replaceZChars rest

/-- `s.replace("Z", "+00:00")` as used on every timestamp before parsing. -/
def pyReplaceZ (s : String) : String := ⟨replaceZChars s.data⟩

/-! ### `datetime.fromisoformat`

Model of the strict (pre-3.11) parser on the shapes the engine feeds it:
`YYYY-MM-DD[<sep>HH:MM[:SS[.fff[fff]]][+HH:MM[:SS]]]`.  The result is the
instant in microseconds since the Unix epoch; strings outside this grammar
parse to `none` (Python raises `ValueError` there). -/

/-- A decimal digit, as a number. -/
def digit? (c : Char) : Option Nat :=
  if c.isDigit then some (c.toNat - 48) else none

/-- Two decimal digits. -/
def parse2 : List Char → Option (Nat × List Char)
  | a :: b :: rest =>
    match digit? a, digit? b with
    | some x, some y => some (10 * x + y, rest)
    | _, _ => none
  | _ => none

/-- Four decimal digits. -/
def parse4 : List Char → Option (Nat × List Char)
  | a :: b :: c :: d :: rest =>
    match digit? a, digit? b, digit? c, digit? d with
    | some w, some x, some y, some z => some (1000 * w + 100 * x + 10 * y + z, rest)
    | _, _, _, _ => none
  | _ => none

/-- Whether `y` is a Gregorian leap year. -/
def isLeap (y : Nat) : Bool :=
  y % 4 = 0 && (y % 100 ≠ 0 || y % 400 = 0)

/-- Days in month `m` of year `y` (months numbered from 1). -/
def daysInMonth (y m : Nat) : Nat :=
  if m = 2 then (if isLeap y then 29 else 28)
  else if m = 4 ∨ m = 6 ∨ m = 9 ∨ m = 11 then 30
  else 31

/-- Days from the start of year `y` to the start of month `m`. -/
def daysBeforeMonth (y m : Nat) : Nat :=
  let base :=
    match m with
    | 1 => 0 | 2 => 31 | 3 => 59 | 4 => 90 | 5 => 120 | 6 => 151
    | 7 => 181 | 8 => 212 | 9 => 243 | 10 => 273 | 11 => 304 | _ => 334
  if 2 < m ∧ isLeap y then base + 1 else base

/-- Day count of `y-m-d` relative to 1970-01-01 (719162 days separate
0001-01-01 from the epoch). -/
def epochDays (y m d : Nat) : Int :=
  let yb := y - 1
  (365 * yb + yb / 4 - yb / 100 + yb / 400 + daysBeforeMonth y m + (d - 1) : Int) - 719162

/-- `.fff` or `.ffffff` fractional seconds, in microseconds. -/
def parseFraction : List Char → Option (Nat × List Char)
  | '.' :: a :: b :: c :: rest =>
    match digit? a, digit? b, digit? c with
    | some x, some y, some z =>
      match rest with
      | d :: e :: f :: rest' =>
        match digit? d, digit? e, digit? f with
        | some u, some v, some w =>
          some ((100 * x + 10 * y + z) * 1000 + 100 * u + 10 * v + w, rest')
        | _, _, _ => some ((100 * x + 10 * y + z) * 1000, rest)
      | _ => some ((100 * x + 10 * y + z) * 1000, rest)
    | _, _, _ => none
  | _ => none

/-- `±HH:MM[:SS]` UTC offset, in seconds; input `[]` means a naive datetime
(modelled at offset 0). The whole remainder must be consumed. -/
def parseOffset : List Char → Option Int
  | [] => some 0
  | sign :: rest =>
    if sign = '+' ∨ sign = '-' then
      match parse2 rest with
      | some (oh, ':' :: rest2) =>
        match parse2 rest2 with
        | some (om, rest3) =>
          let secs : Option Nat :=
            match rest3 with
            | [] => some 0
            | ':' :: rest4 =>
              match parse2 rest4 with
              | some (os, []) => if os < 60 then some os else none
              | _ => none
            | _ => none
          match secs with
          | some os =>
            if oh < 24 ∧ om < 60 then
              let total : Int := oh * 3600 + om * 60 + os
              some (if sign = '-' then -total else total)
            else none
          | none => none
        | _ => none
      | _ => none
    else none

/-- `HH:MM[:SS[.frac]]` time of day: seconds since midnight and microseconds,
plus the unconsumed remainder (the offset). -/
def parseTime (cs : List Char) : Option (Nat × Nat × List Char) :=
  match parse2 cs with
  | some (h, ':' :: rest) =>
    match parse2 rest with
    | some (mi, rest2) =>
      if h < 24 ∧ mi < 60 then
        match rest2 with
        | ':' :: rest3 =>
          match parse2 rest3 with
          | some (s, rest4) =>
            if s < 60 then
              match parseFraction rest4 with
              | some (frac, rest5) => some (h * 3600 + mi * 60 + s, frac, rest5)
              | none => some (h * 3600 + mi * 60 + s, 0, rest4)
            else none
          | none => none
        | _ => some (h * 3600 + mi * 60, 0, rest2)
      else none
    | _ => none
  | _ => none

/-- `datetime.fromisoformat`, as microseconds since the Unix epoch. -/
def pyFromIso (s : String) : Option Int :=
  match parse4 s.data with
  | some (y, '-' :: rest) =>
    match parse2 rest with
    | some (m, '-' :: rest2) =>
      match parse2 rest2 with
      | some (d, rest3) =>
        if 1 ≤ y ∧ 1 ≤ m ∧ m ≤ 12 ∧ 1 ≤ d ∧ d ≤ daysInMonth y m then
          match rest3 with
          | [] => some (epochDays y m d * 86400000000)
          | _ :: timpart =>
            match parseTime timpart with
            | some (secs, frac, offpart) =>
              match parseOffset offpart with
              | some off =>
                some ((epochDays y m d * 86400 + secs - off) * 1000000 + frac)
              | none => none
            | none => none
        else none
      | _ => none
    | _ => none
  | _ => none

/-- The parsed timestamp of an event's fields:
`datetime.fromisoformat(fields["timestamp"].replace("Z", "+00:00"))`,
`none` when the field is missing (`KeyError`) or unparseable (`ValueError`). -/
def parseEventTimestamp (m : Fields) : Option Int :=
  (fget m "timestamp").bind fun s => pyFromIso (pyReplaceZ s)

/-! ### Stream messages (`RedisStreamAdapter.StreamMessage`) -/

/-- A message read from the broker stream; `stream_id` is the broker id
(ordered naturals model the `"<millis>-<seq>"` ids). -/
structure StreamMessage where
  stream_id : Nat
  fields : Fields
deriving DecidableEq

/-- The `event_id` property: `fields.get("event_id", "")`. -/
def StreamMessage.eventId (e : StreamMessage) : String :=
  fgetD e.fields "event_id" ""

/-! ### The deterministic sort (`execute_replay`, `events.sort(key=...)`)

The key is `(datetime.fromisoformat(fields["timestamp"].replace("Z","+00:00")),
fields["event_id"])`; both subscript accesses raise on a missing key, and
`fromisoformat` raises on an unparseable string, so the sort succeeds only
when every batched event has a parseable timestamp and an `event_id` field. -/

/-- The sort key of an event, when it is computable at all. -/
def sortKey? (e : StreamMessage) : Option (Int × String) :=
  match parseEventTimestamp e.fields, fget e.fields "event_id" with
  | some t, some eid => some (t, eid)
  | _, _ => none

/-- Total stand-in for the key inside the comparator; only consulted on
events whose key exists (`sortBatch` fails otherwise). -/
def sortKeyD (e : StreamMessage) : Int × String :=
  (sortKey? e).getD (0, "")

/-- Lexicographic order on `(timestamp, event_id)` keys, as Python compares
the key tuples. -/
def keyLE (a b : Int × String) : Bool :=
  a.1 < b.1 || (a.1 = b.1 && a.2 ≤ b.2)

/-- Comparator handed to the (stable) sort. -/
def eventLE (e₁ e₂ : StreamMessage) : Bool :=
  keyLE (sortKeyD e₁) (sortKeyD e₂)

theorem keyLE_trans (a b c : Int × String) (h₁ : keyLE a b) (h₂ : keyLE b c) :
    keyLE a c := by
  simp only [keyLE, Bool.or_eq_true, Bool.and_eq_true, decide_eq_true_eq] at *
  rcases h₁ with h₁ | ⟨h₁, h₁'⟩ <;> rcases h₂ with h₂ | ⟨h₂, h₂'⟩
  · exact Or.inl (h₁.trans h₂)
  · exact Or.inl (h₂ ▸ h₁)
  · exact Or.inl (h₁ ▸ h₂)
  · exact Or.inr ⟨h₁.trans h₂, le_trans h₁' h₂'⟩

theorem keyLE_total (a b : Int × String) : keyLE a b || keyLE b a := by
  simp only [keyLE, Bool.or_eq_true, Bool.and_eq_true, decide_eq_true_eq]
  rcases lt_trichotomy a.1 b.1 with h | h | h
  · exact Or.inl (Or.inl h)
  · rcases le_total a.2 b.2 with h' | h'
    · exact Or.inl (Or.inr ⟨h, h'⟩)
    · exact Or.inr (Or.inr ⟨h.symm, h'⟩)
  · exact Or.inr (Or.inl h)

theorem eventLE_trans (a b c : StreamMessage) (h₁ : eventLE a b) (h₂ : eventLE b c) :
    eventLE a c := keyLE_trans _ _ _ h₁ h₂

theorem eventLE_total (a b : StreamMessage) : eventLE a b || eventLE b a :=
  keyLE_total _ _

/-- The comparator as a relation, for the stable sort. -/
def eventLEP (a b : StreamMessage) : Prop := eventLE a b = true

instance : DecidableRel eventLEP :=
  fun a b => inferInstanceAs (Decidable (eventLE a b = true))

instance : IsTrans StreamMessage eventLEP :=
  ⟨fun a b c => eventLE_trans a b c⟩

instance : IsTotal StreamMessage eventLEP :=
  ⟨fun a b => Bool.or_eq_true _ _ ▸ eventLE_total a b⟩

/-- `events.sort(key=...)`: `some` of the stably key-sorted batch when every
key is computable, `none` when the key function raises (the exception then
escapes to `execute_replay`'s handler).  Python's `list.sort` is a stable
sort by the key; a stable sort's output is uniquely determined by the key
order and the input order, so the structural `insertionSort` below computes
exactly it (sortedness, permutation and stability are proved further
down). -/
def sortBatch (l : List StreamMessage) : Option (List StreamMessage) :=
  if l.all fun e => (sortKey? e).isSome then some (l.insertionSort eventLEP)
  else none

/-! ### The bug detector (`BugDetector.analyze_event`) -/

/-- A finding (`DetectedBug` dataclass); `context` keeps the rule-specific
key/value payload with stringified values. -/
structure DetectedBug where
  bug_id : String
  bug_type : String
  severity : String
  event_id : String
  context : List (String × String)
deriving DecidableEq

/-- Detector configuration (`bug_detection` section, with the code's
defaults). -/
structure DetectorConfig where
  error_levels : List String := ["ERROR", "FATAL", "CRITICAL"]
  gap_threshold_seconds : Int := 300
deriving DecidableEq

/-- Mutable detector state: `last_event_times` (microsecond instants keyed by
session id) and `error_counts` (keyed by `source:level`). -/
structure DetectorState where
  last_event_times : List (String × Int) := []
  error_counts : List (String × Nat) := []
deriving DecidableEq

/-- Python dict lookup on an association list. -/
def getAssoc? {α : Type} (m : List (String × α)) (k : String) : Option α :=
  match m with
  | [] => none
  | (k', v) :: rest => if k' = k then some v else getAssoc? rest k

/-- Python `dict.get(k, d)`. -/
def getAssocD {α : Type} (m : List (String × α)) (k : String) (d : α) : α :=
  (getAssoc? m k).getD d

/-- Python `dict[k] = v`: replace the first binding in place, else append. -/
def setAssoc {α : Type} (m : List (String × α)) (k : String) (v : α) :
    List (String × α) :=
  match m with
  | [] => [(k, v)]
  | (k', v') :: rest =>
    if k' = k then (k', v) :: rest else (k', v') :: setAssoc rest k v

/-- The `source:level` counter key of the repeated-error rule. -/
def errKey (e : StreamMessage) : String :=
  fgetD e.fields "source" "unknown" ++ ":" ++ fgetD e.fields "level" "unknown"

/-- `BugDetector.analyze_event`: parse the timestamp (returning no findings
when that raises), then run the error-level, timing-gap and repeated-error
rules in order, threading the detector state. -/
def analyze_event (cfg : DetectorConfig) (st : DetectorState) (e : StreamMessage) :
    DetectorState × List DetectedBug :=
  match parseEventTimestamp e.fields with
  | none => (st, [])
  | some t =>
    let errorBugs : List DetectedBug :=
      match fget e.fields "level" with
      | some lvl =>
        if cfg.error_levels.contains lvl then
          [{ bug_id := "bug-" ++ e.eventId ++ "-error", bug_type := "error_event",
             severity := "high", event_id := e.eventId,
             context := [("message", fgetD e.fields "payload" "None"),
                         ("level", lvl)] }]
        else []
      | none => []
    let skey := fgetD e.fields "session_id" "default"
    let gapBugs : List DetectedBug :=
      match getAssoc? st.last_event_times skey with
      | some lastT =>
        if t - lastT > cfg.gap_threshold_seconds * 1000000 then
          [{ bug_id := "bug-" ++ e.eventId ++ "-gap", bug_type := "timing_gap",
             severity := "medium", event_id := e.eventId,
             context := [("gap_micros", toString (t - lastT))] }]
        else []
      | none => []
    let st₁ : DetectorState :=
      { st with last_event_times := setAssoc st.last_event_times skey t }
    let k := errKey e
    let newCount := getAssocD st₁.error_counts k 0 + 1
    let st₂ : DetectorState :=
      { st₁ with error_counts := setAssoc st₁.error_counts k newCount }
    let repeatedBugs : List DetectedBug :=
      if newCount > 3 then
        [{ bug_id := "bug-" ++ e.eventId ++ "-repeated", bug_type := "repeated_error",
           severity := "high", event_id := e.eventId,
           context := [("error_count", toString newCount),
                       ("source", fgetD e.fields "source" "None")] }]
      else []
    (st₂, errorBugs ++ gapBugs ++ repeatedBugs)

/-- Folding the detector over an ordered event sequence, collecting each
event's findings. -/
def analyzeSeq (cfg : DetectorConfig) :
    DetectorState → List StreamMessage → DetectorState × List (List DetectedBug)
  | st, [] => (st, [])
  | st, e :: rest =>
    let p := analyze_event cfg st e
    let r := analyzeSeq cfg p.1 rest
    (r.1, p.2 :: r.2)

/-! ### Session registry (`SessionManager`, `ReplaySession` dataclass) -/

/-- The `ReplaySession` dataclass; `started_at` is a microsecond instant,
`progress` a rational standing in for the Python float. -/
structure ReplaySession where
  session_id : String
  replay_id : String
  config : List (String × String)
  status : String := "pending"
  started_at : Option Int := none
  events_processed : Nat := 0
  total_events : Nat := 0
  progress : ℚ := 0
deriving DecidableEq

/-- `SessionManager.update_session_status(replay_id, status)` with no extra
keyword attributes, at wall-clock instant `now`: mutate the first session
whose `replay_id` matches (set `status` unconditionally; refresh
`started_at` exactly when the new status is `"running"`) and report whether
a session was found. -/
def update_session_status (sessions : List ReplaySession)
    (replay_id status : String) (now : Int) : List ReplaySession × Bool :=
  match sessions with
  | [] => ([], false)
  | s :: rest =>
    if s.replay_id = replay_id then
      ({ s with
          status := status,
          started_at := if status = "running" then some now else s.started_at }
        :: rest, true)
    else
      let r := update_session_status rest replay_id status now
      (s :: r.1, r.2)

/-! ### Broker range reads (`RedisStreamAdapter.read_messages_by_range`)

The adapter issues `XRANGE stream min max COUNT n`: an id-inclusive range
read that is oblivious to consumer-group acknowledgements.  The stream is a
list of `(id, fields)` entries in broker (id) order; `none` bounds model the
`"+"` sentinel and a missing COUNT. -/

/-- `read_messages_by_range(start_id, end_id, count)`. -/
def read_messages_by_range (stream : List (Nat × Fields))
    (startId : Nat) (endId : Option Nat) (count : Option Nat) :
    List StreamMessage :=
  let inRange := stream.filter fun p =>
    startId ≤ p.1 && (match endId with | some e => p.1 ≤ e | none => true)
  let msgs := inRange.map fun p => { stream_id := p.1, fields := p.2 }
  match count with
  | some n => msgs.take n
  | none => msgs

/-! ### The replayer (`DeterministicReplayer.execute_replay`) -/

/-- The per-run request configuration (after the defaulting at the top of
`execute_replay`); `end_ts = none` is the `"+"` sentinel. -/
structure ReplayConfig where
  mode : String := "dry-run"
  speed : ℚ := 1
  end_ts : Option Nat := none
deriving DecidableEq

/-- A persisted checkpoint (`main` kind): the fields the replayer reads back. -/
structure Checkpoint where
  events_processed : Nat
  current_message_id : Nat
  progress : ℚ
deriving DecidableEq

/-- Accumulated effects of the event loop. -/
structure LoopOut where
  acked : List Nat
  findings : List (List DetectedBug)
  checkpoints : List Checkpoint
  detSt : DetectorState
  events_processed : Nat
deriving DecidableEq

/-- The `for i, event in enumerate(events)` body: analyze, advance the
counters, checkpoint every `ce` processed events, then acknowledge.
`ce` is `config["replay"]["checkpoint_every"]`; the source computes
`events_processed % checkpoint_every`, which raises on `ce = 0` in Python —
all theorems below assume `0 < ce` (the spec requires a positive integer). -/
def replayLoop (cfg : DetectorConfig) (ce total : Nat) :
    List StreamMessage → DetectorState → Nat → LoopOut
  | [], st, ep =>
    { acked := [], findings := [], checkpoints := [], detSt := st,
      events_processed := ep }
  | e :: rest, st, ep =>
    let p := analyze_event cfg st e
    let ep' := ep + 1
    let progress : ℚ := if 0 < total then (ep' : ℚ) / total else 0
    let here : List Checkpoint :=
      if ep' % ce = 0 then
        [{ events_processed := ep', current_message_id := e.stream_id,
           progress := progress }]
      else []
    let r := replayLoop cfg ce total rest p.1 ep'
    { acked := e.stream_id :: r.acked,
      findings := p.2 :: r.findings,
      checkpoints := here ++ r.checkpoints,
      detSt := r.detSt,
      events_processed := r.events_processed }

/-- The observable outcome of one `execute_replay` run. -/
structure RunOutcome where
  status : String
  total_events : Nat
  events_processed : Nat
  processed : List StreamMessage
  acked : List Nat
  sleeps : List ℚ
  findings : List (List DetectedBug)
  checkpoints : List Checkpoint
  finalCheckpoint : Option Checkpoint
deriving DecidableEq

/-- The outcome of a run whose exception handler fired before the loop
(sorting raised): the session is marked `failed` and nothing was processed
or acknowledged. -/
def failedOutcome : RunOutcome :=
  { status := "failed", total_events := 0, events_processed := 0,
    processed := [], acked := [], sleeps := [], findings := [],
    checkpoints := [], finalCheckpoint := none }

/-- The batch one run fetches: `read_messages_by_range(start_id, end_ts or
"+", max_events_per_batch)` with `start_id` resumed from the checkpoint's
`current_message_id` (or `"0"`). -/
def fetchedBatch (cfg : ReplayConfig) (maxBatch : Option Nat)
    (stream : List (Nat × Fields)) (checkpoint : Option Checkpoint) :
    List StreamMessage :=
  read_messages_by_range stream
    (match checkpoint with | some c => c.current_message_id | none => 0)
    cfg.end_ts maxBatch

/-- `DeterministicReplayer.execute_replay`: resume from the `main`
checkpoint if present, fetch one id range, sort it by `(parsed timestamp,
event_id)`, then run the loop; write a final checkpoint when the batch was
nonempty and finish `completed`.  The only sleep in the source is
`if config["mode"] == "timed" and config["speed"] != 1.0:
asyncio.sleep(1.0 / config["speed"])`, once per event before processing. -/
def execute_replay (cfg : ReplayConfig) (detCfg : DetectorConfig)
    (ce : Nat) (maxBatch : Option Nat)
    (stream : List (Nat × Fields)) (checkpoint : Option Checkpoint) :
    RunOutcome :=
  let ep₀ := match checkpoint with | some c => c.events_processed | none => 0
  let batch := fetchedBatch cfg maxBatch stream checkpoint
  match sortBatch batch with
  | none => failedOutcome
  | some events =>
    let total := events.length
    let L := replayLoop detCfg ce total events {} ep₀
    let fc : Option Checkpoint :=
      match events.getLast? with
      | some lastE =>
        some { events_processed := L.events_processed,
               current_message_id := lastE.stream_id, progress := 1 }
      | none => none
    { status := "completed",
      total_events := total,
      events_processed := L.events_processed,
      processed := events,
      acked := L.acked,
      sleeps :=
        if cfg.mode = "timed" ∧ cfg.speed ≠ 1 then
          List.replicate total (1 / cfg.speed)
        else [],
      findings := L.findings,
      checkpoints := L.checkpoints ++ fc.toList,
      finalCheckpoint := fc }

/-- `execute_replay` together with its session mutations, under an external
stop request.  The source loop never reads the session status, so a
`stop_replay` call landing at any suspension point only performs
`update_session_status(replay_id, "stopped")`; the run itself is unaffected
and its final `update_session_status` overwrites the status
unconditionally. -/
def execute_replay_with_stop (cfg : ReplayConfig) (detCfg : DetectorConfig)
    (ce : Nat) (maxBatch : Option Nat)
    (stream : List (Nat × Fields)) (checkpoint : Option Checkpoint)
    (sessions : List ReplaySession) (replay_id : String)
    (stopRequested : Bool) (now : Int) :
    RunOutcome × List ReplaySession :=
  let s₁ := (update_session_status sessions replay_id "running" now).1
  let run := execute_replay cfg detCfg ce maxBatch stream checkpoint
  let s₂ :=
    if stopRequested then (update_session_status s₁ replay_id "stopped" now).1
    else s₁
  let s₃ := (update_session_status s₂ replay_id
    (if run.status = "completed" then "completed" else "failed") now).1
  (run, s₃)

/-! ## Helper lemmas -/

theorem keyLE_refl (k : Int × String) : keyLE k k := by
  simp [keyLE]

/-- Every ack the loop issues is the stream id of the corresponding event,
in processing order. -/
theorem replayLoop_acked (cfg : DetectorConfig) (ce total : Nat) :
    ∀ (l : List StreamMessage) (st : DetectorState) (ep : Nat),
      (replayLoop cfg ce total l st ep).acked = l.map (·.stream_id)
  | [], _, _ => rfl
  | _ :: rest, st, ep => by
    simp only [replayLoop, List.map_cons]
    exact congrArg _ (replayLoop_acked cfg ce total rest _ _)

theorem sortBatch_eq_some {l s : List StreamMessage}
    (h : sortBatch l = some s) : s = l.insertionSort eventLEP := by
  unfold sortBatch at h
  split at h
  · exact (Option.some.injEq _ _ ▸ h).symm
  · exact absurd h (by simp)

theorem sortBatch_all_some {l s : List StreamMessage}
    (h : sortBatch l = some s) :
    ∀ e ∈ l, (sortKey? e).isSome := by
  unfold sortBatch at h
  split at h
  · next hall => exact fun e he => by simpa using List.all_eq_true.mp hall e he
  · exact absurd h (by simp)

theorem sortBatch_isSome_of_all {l : List StreamMessage}
    (h : ∀ e ∈ l, (sortKey? e).isSome) :
    sortBatch l = some (l.insertionSort eventLEP) := by
  unfold sortBatch
  rw [if_pos]
  exact List.all_eq_true.mpr fun e he => by simpa using h e he

/-- Stability of the sort: the subsequence of events with any fixed key is
unchanged by sorting. -/
theorem insertionSort_filter_key (l : List StreamMessage) (k : Int × String) :
    (l.insertionSort eventLEP).filter (fun e => decide (sortKeyD e = k))
      = l.filter (fun e => decide (sortKeyD e = k)) := by
  have hpw : (l.filter (fun e => decide (sortKeyD e = k))).Pairwise
      (fun a b => eventLE a b = true) := by
    refine List.pairwise_of_forall_mem_list fun a ha b hb => ?_
    have ha' := (List.mem_filter.mp ha).2
    have hb' := (List.mem_filter.mp hb).2
    simp only [decide_eq_true_eq] at ha' hb'
    show keyLE (sortKeyD a) (sortKeyD b) = true
    rw [ha', hb']
    exact keyLE_refl k
  have h₂ : (l.filter (fun e => decide (sortKeyD e = k))).Sublist
      (l.insertionSort eventLEP) :=
    List.sublist_insertionSort hpw (List.filter_sublist l)
  have h₃ : ((l.insertionSort eventLEP).filter (fun e => decide (sortKeyD e = k))).Perm
      (l.filter (fun e => decide (sortKeyD e = k))) :=
    (List.perm_insertionSort eventLEP l).filter _
  have h₄ := h₂.filter (fun e => decide (sortKeyD e = k))
  have hpp : (fun a => decide (sortKeyD a = k) && decide (sortKeyD a = k))
      = (fun e : StreamMessage => decide (sortKeyD e = k)) := by
    funext a
    exact Bool.and_self _
  rw [List.filter_filter, hpp] at h₄
  exact (h₄.eq_of_length h₃.length_eq.symm).symm

theorem getAssocD_setAssoc_self {α : Type} (m : List (String × α))
    (k : String) (v d : α) : getAssocD (setAssoc m k v) k d = v := by
  induction m with
  | nil => simp [setAssoc, getAssocD, getAssoc?]
  | cons hd tl ih =>
    by_cases h : hd.1 = k
    · simp [setAssoc, getAssocD, getAssoc?, h]
    · simpa [setAssoc, getAssocD, getAssoc?, h] using ih

/-- A run that finished `completed` sorted its fetched batch and delivered
exactly the sorted events, acknowledging each in order. -/
theorem execute_replay_completed (cfg : ReplayConfig) (detCfg : DetectorConfig)
    (ce : Nat) (mb : Option Nat) (stream : List (Nat × Fields))
    (cp : Option Checkpoint)
    (h : (execute_replay cfg detCfg ce mb stream cp).status = "completed") :
    (execute_replay cfg detCfg ce mb stream cp).processed
        = (fetchedBatch cfg mb stream cp).insertionSort eventLEP
      ∧ (execute_replay cfg detCfg ce mb stream cp).acked
        = (execute_replay cfg detCfg ce mb stream cp).processed.map (·.stream_id)
      ∧ ∀ e ∈ fetchedBatch cfg mb stream cp, (sortKey? e).isSome := by
  rcases hs : sortBatch (fetchedBatch cfg mb stream cp) with _ | s
  · simp only [execute_replay, hs, failedOutcome] at h
    exact absurd h (by decide)
  · simp only [execute_replay, hs]
    refine ⟨sortBatch_eq_some hs, ?_, sortBatch_all_some hs⟩
    exact replayLoop_acked detCfg ce s.length s {} _

/-! ## Witness fixtures (concrete events used by witness theorems) -/

/-- A well-formed event field map. -/
def wFields (eid ts : String) : Fields :=
  [("event_id", eid), ("timestamp", ts), ("source", "svc"), ("level", "INFO")]

/-- Three entries whose broker-id order disagrees with their timestamp
order (timestamps t₂, t₀, t₁). -/
def wStream3 : List (Nat × Fields) :=
  [(1, wFields "A" "2025-01-01T10:00:02Z"),
   (2, wFields "B" "2025-01-01T10:00:00Z"),
   (3, wFields "C" "2025-01-01T10:00:01Z")]

/-! ## Claims -/

/-- C1: after fetching a batch, the Replayer sorts it by the key
`(parsed timestamp, event_id)` — ties in timestamp broken by lexicographic
`event_id`, stably — and consequently, in every completed run, the
processed-and-acknowledged sequence is pairwise ordered by that key: for all
positions `i < j`, `(eᵢ.timestamp, eᵢ.event_id) ≤ (eⱼ.timestamp,
eⱼ.event_id)`.  Stated as: the processed events are pairwise `keyLE`-ordered,
are a permutation of the fetched batch, every key is genuinely computed from
the event, the subsequence holding any fixed key is preserved (stability),
and the ack sequence is exactly the processed sequence's ids. -/
theorem C1_sorted_processing_order (cfg : ReplayConfig) (detCfg : DetectorConfig)
    (ce : Nat) (mb : Option Nat) (stream : List (Nat × Fields))
    (cp : Option Checkpoint)
    (h : (execute_replay cfg detCfg ce mb stream cp).status = "completed") :
    (execute_replay cfg detCfg ce mb stream cp).processed.Pairwise
        (fun a b => keyLE (sortKeyD a) (sortKeyD b) = true)
      ∧ (execute_replay cfg detCfg ce mb stream cp).processed.Perm
          (fetchedBatch cfg mb stream cp)
      ∧ (∀ e ∈ (execute_replay cfg detCfg ce mb stream cp).processed,
          sortKey? e = some (sortKeyD e))
      ∧ (∀ k : Int × String,
          (execute_replay cfg detCfg ce mb stream cp).processed.filter
              (fun e => decide (sortKeyD e = k))
            = (fetchedBatch cfg mb stream cp).filter
              (fun e => decide (sortKeyD e = k)))
      ∧ (execute_replay cfg detCfg ce mb stream cp).acked
          = (execute_replay cfg detCfg ce mb stream cp).processed.map
              (·.stream_id) := by
  obtain ⟨hp, ha, hall⟩ := execute_replay_completed cfg detCfg ce mb stream cp h
  have hperm : ((fetchedBatch cfg mb stream cp).insertionSort eventLEP).Perm
      (fetchedBatch cfg mb stream cp) := List.perm_insertionSort _ _
  refine ⟨?_, ?_, ?_, ?_, ha⟩
  · rw [hp]
    exact List.sorted_insertionSort eventLEP _
  · rw [hp]
    exact hperm
  · intro e he
    rw [hp] at he
    have := hall e (hperm.mem_iff.mp he)
    rcases hk : sortKey? e with _ | k
    · rw [hk] at this
      exact absurd this (by simp)
    · simp [sortKeyD, hk]
  · intro k
    rw [hp]
    exact insertionSort_filter_key _ k

/-- Witness for C1 at a concrete three-event stream whose broker order
disagrees with its timestamp order. -/
theorem C1_sorted_processing_order_witness :
    (execute_replay {} {} 10 none wStream3 none).processed.Pairwise
        (fun a b => keyLE (sortKeyD a) (sortKeyD b) = true)
      ∧ (execute_replay {} {} 10 none wStream3 none).processed.Perm
          (fetchedBatch {} none wStream3 none)
      ∧ (∀ e ∈ (execute_replay {} {} 10 none wStream3 none).processed,
          sortKey? e = some (sortKeyD e))
      ∧ (∀ k : Int × String,
          (execute_replay {} {} 10 none wStream3 none).processed.filter
              (fun e => decide (sortKeyD e = k))
            = (fetchedBatch {} none wStream3 none).filter
              (fun e => decide (sortKeyD e = k)))
      ∧ (execute_replay {} {} 10 none wStream3 none).acked
          = (execute_replay {} {} 10 none wStream3 none).processed.map
              (·.stream_id) :=
  C1_sorted_processing_order {} {} 10 none wStream3 none rfl

/-- Membership in an unbounded, uncounted range read: exactly the stream
entries whose id is at least `s`. -/
theorem mem_read_range {stream : List (Nat × Fields)} {s : Nat}
    {e : StreamMessage} :
    e ∈ read_messages_by_range stream s none none
      ↔ (e.stream_id, e.fields) ∈ stream ∧ s ≤ e.stream_id := by
  simp only [read_messages_by_range, List.mem_map, List.mem_filter,
    Bool.and_eq_true, decide_eq_true_eq]
  constructor
  · rintro ⟨p, ⟨hp, hs, _⟩, rfl⟩
    exact ⟨hp, hs⟩
  · rintro ⟨hm, hs⟩
    exact ⟨(e.stream_id, e.fields), ⟨hm, hs, trivial⟩, rfl⟩

/-- Two entries with parseable timestamps; used by the C2 scenario. -/
def wStream2 : List (Nat × Fields) :=
  [(1, wFields "A" "2025-01-01T10:00:00Z"),
   (2, wFields "B" "2025-01-01T10:00:01Z")]

/-- A `main` checkpoint recorded after processing the entry with id 1. -/
def wCp : Checkpoint :=
  { events_processed := 1, current_message_id := 1, progress := 1/2 }

/-- C2 counterexample: with a checkpoint at `current_message_id = 1`, the
next run acknowledges ids `[1, 2]` — it re-reads and re-acks the
checkpointed entry, so it does not read strictly after the checkpoint and
the entry at id 1 is acknowledged in both runs. -/
theorem C2_counterexample :
    (execute_replay {} {} 10 none wStream2 (some wCp)).acked = [1, 2]
      ∧ ¬ ∀ i ∈ (execute_replay {} {} 10 none wStream2 (some wCp)).acked,
          wCp.current_message_id < i := by
  have hack : (execute_replay {} {} 10 none wStream2 (some wCp)).acked = [1, 2] :=
    rfl
  refine ⟨hack, fun hall => ?_⟩
  have h1 : (1 : Nat) ∈ (execute_replay {} {} 10 none wStream2 (some wCp)).acked := by
    rw [hack]
    exact List.mem_cons_self 1 [2]
  exact absurd (hall 1 h1) (by decide)

/-- C2 amended: when a `main` checkpoint with `current_message_id = C`
exists, the next run reads the id range *inclusively* from `C`
(`XRANGE min=C`), so the checkpointed entry is fetched, processed and
acknowledged a second time; only entries with ids strictly below `C` are
excluded.  Consequently the event acknowledged at the checkpoint boundary is
acknowledged twice across the two runs, contrary to the claimed
strictly-after read. -/
theorem C2_resume_reads_inclusive (cfg : ReplayConfig) (detCfg : DetectorConfig)
    (ce : Nat) (stream : List (Nat × Fields)) (cp : Checkpoint) (f : Fields)
    (hend : cfg.end_ts = none)
    (hmem : (cp.current_message_id, f) ∈ stream)
    (hall : ∀ p ∈ stream, (sortKey? { stream_id := p.1, fields := p.2 }).isSome) :
    cp.current_message_id
        ∈ (execute_replay cfg detCfg ce none stream (some cp)).acked
      ∧ ∀ i ∈ (execute_replay cfg detCfg ce none stream (some cp)).acked,
          cp.current_message_id ≤ i := by
  have hbatch : ∀ e ∈ fetchedBatch cfg none stream (some cp),
      (e.stream_id, e.fields) ∈ stream ∧ cp.current_message_id ≤ e.stream_id := by
    intro e he
    rw [fetchedBatch, hend] at he
    exact mem_read_range.mp he
  have hsome : ∀ e ∈ fetchedBatch cfg none stream (some cp), (sortKey? e).isSome :=
    fun e he => hall (e.stream_id, e.fields) (hbatch e he).1
  have hsort := sortBatch_isSome_of_all hsome
  have hacked : (execute_replay cfg detCfg ce none stream (some cp)).acked
      = ((fetchedBatch cfg none stream (some cp)).insertionSort eventLEP).map
          (·.stream_id) := by
    simp only [execute_replay, hsort]
    exact replayLoop_acked detCfg ce _ _ {} _
  have hperm := List.perm_insertionSort eventLEP (fetchedBatch cfg none stream (some cp))
  constructor
  · rw [hacked]
    have hin : ({ stream_id := cp.current_message_id, fields := f } : StreamMessage)
        ∈ fetchedBatch cfg none stream (some cp) := by
      rw [fetchedBatch, hend]
      exact mem_read_range.mpr ⟨hmem, le_refl _⟩
    exact List.mem_map.mpr ⟨_, hperm.mem_iff.mpr hin, rfl⟩
  · intro i hi
    rw [hacked] at hi
    obtain ⟨e, he, rfl⟩ := List.mem_map.mp hi
    exact (hbatch e (hperm.mem_iff.mp he)).2

/-- Witness for C2's amended theorem at the concrete two-entry stream. -/
theorem C2_resume_reads_inclusive_witness :
    wCp.current_message_id
        ∈ (execute_replay {} {} 10 none wStream2 (some wCp)).acked
      ∧ ∀ i ∈ (execute_replay {} {} 10 none wStream2 (some wCp)).acked,
          wCp.current_message_id ≤ i :=
  C2_resume_reads_inclusive {} {} 10 wStream2 wCp (wFields "A" "2025-01-01T10:00:00Z")
    rfl (by decide) (by decide)

/-- A freshly created session for replay `r1`. -/
def wSession : ReplaySession :=
  { session_id := "s-1", replay_id := "r1", config := [] }

/-- C3: the claim says a stop or failure observed while the loop runs makes
it exit at the next iteration boundary without acknowledging the current
event, leaving the session `stopped`.  The source loop contains no session
status check at all: evaluating the model at a two-event stream with a stop
request landing before the first iteration, both events are still
acknowledged and the final unconditional status update leaves the session
`completed`, not `stopped`. -/
theorem C3_stop_request_not_observed :
    (execute_replay_with_stop {} {} 10 none wStream2 none
        [wSession] "r1" true 0).1.acked = [1, 2]
      ∧ ((execute_replay_with_stop {} {} 10 none wStream2 none
          [wSession] "r1" true 0).2.map (·.status)) = ["completed"] :=
  ⟨rfl, rfl⟩

/-- C4 counterexample: a completed `dry-run` at `speed = 1` over two events
performs no sleep at all, not the claimed `0.5/speed` seconds before each
event (the same run shape shows `live` never sleeps and `timed` ignores the
event timestamps). -/
theorem C4_counterexample :
    (execute_replay { mode := "dry-run" } {} 10 none wStream2 none).sleeps = []
      ∧ (execute_replay { mode := "dry-run" } {} 10 none wStream2 none).total_events = 2
      ∧ (execute_replay { mode := "dry-run" } {} 10 none wStream2 none).status
          = "completed" :=
  ⟨rfl, rfl, rfl⟩

/-- C4 amended: the only pacing in `execute_replay` is
`if config["mode"] == "timed" and config["speed"] != 1.0:
await asyncio.sleep(1.0 / config["speed"])` — a sleep of `1.0/speed` seconds
before every event exactly when the mode is `timed` and the speed is not
`1.0`; `dry-run` and `live` never sleep, and no neighbour timestamp is ever
consulted. -/
theorem C4_pacing_timed_only (cfg : ReplayConfig) (detCfg : DetectorConfig)
    (ce : Nat) (mb : Option Nat) (stream : List (Nat × Fields))
    (cp : Option Checkpoint) :
    (execute_replay cfg detCfg ce mb stream cp).sleeps
      = if cfg.mode = "timed" ∧ cfg.speed ≠ 1 then
          List.replicate (execute_replay cfg detCfg ce mb stream cp).total_events
            (1 / cfg.speed)
        else [] := by
  rcases hs : sortBatch (fetchedBatch cfg mb stream cp) with _ | s <;>
    simp [execute_replay, hs, failedOutcome]

/-- A session already in the terminal status `stopped`. -/
def wStopped : ReplaySession :=
  { session_id := "s-1", replay_id := "r1", config := [], status := "stopped" }

/-- C5 counterexample: a session whose status is the terminal value
`stopped` is set to `completed` by a subsequent `update_session_status` call
— terminal statuses are overwritten by values other than `failed`. -/
theorem C5_counterexample :
    ((update_session_status [wStopped] "r1" "completed" 0).1.map (·.status))
        = ["completed"]
      ∧ wStopped.status = "stopped"
      ∧ ("completed" : String) ≠ "failed" :=
  ⟨rfl, rfl, by decide⟩

/-- C5 amended: statuses are not sticky — `update_session_status` overwrites
the first matching session's status unconditionally, whatever the old status
(terminal or not) and whatever the new one; in particular, a session whose
status is `stopped` is set to `completed` by the replayer's final update. -/
theorem C5_no_terminal_stickiness (s : ReplaySession) (rest : List ReplaySession)
    (status : String) (now : Int) :
    (update_session_status (s :: rest) s.replay_id status now).1
      = { s with
            status := status,
            started_at := if status = "running" then some now else s.started_at }
          :: rest := by
  simp [update_session_status]

/-- Whether a finding is a `repeated_error` of severity `high`. -/
def isRepeatedHigh (b : DetectedBug) : Bool :=
  b.bug_type = "repeated_error" && b.severity = "high"

/-- On a parseable event the repeated-error counter for the event's
`source:level` key is incremented by exactly one, whatever the event's
level. -/
theorem analyze_event_count_incr (cfg : DetectorConfig) (st : DetectorState)
    (e : StreamMessage) (t : Int) (h : parseEventTimestamp e.fields = some t) :
    getAssocD (analyze_event cfg st e).1.error_counts (errKey e) 0
      = getAssocD st.error_counts (errKey e) 0 + 1 := by
  simp only [analyze_event, h]
  exact getAssocD_setAssoc_self _ _ _ _

/-- A parseable event yields exactly one `repeated_error/high` finding when
the updated counter strictly exceeds 3, and none otherwise. -/
theorem analyze_event_repeated_len (cfg : DetectorConfig) (st : DetectorState)
    (e : StreamMessage) (t : Int) (h : parseEventTimestamp e.fields = some t) :
    ((analyze_event cfg st e).2.filter isRepeatedHigh).length
      = if 3 < getAssocD st.error_counts (errKey e) 0 + 1 then 1 else 0 := by
  simp only [analyze_event, h, List.filter_append, List.length_append]
  rcases hl : fget e.fields "level" with _ | lvl <;>
    rcases hg : getAssoc? st.last_event_times (fgetD e.fields "session_id" "default")
      with _ | lastT <;>
    simp [isRepeatedHigh, apply_ite (List.filter isRepeatedHigh),
      apply_ite List.length]

/-- Five events sharing one `source:level` key, analyzed from a fresh
detector state, yield `repeated_error` findings on exactly the fourth and
fifth events. -/
theorem analyzeSeq_five_same_key (cfg : DetectorConfig)
    (e₁ e₂ e₃ e₄ e₅ : StreamMessage) (k : String)
    (hp : ∀ e ∈ [e₁, e₂, e₃, e₄, e₅],
      (parseEventTimestamp e.fields).isSome ∧ errKey e = k) :
    ((analyzeSeq cfg {} [e₁, e₂, e₃, e₄, e₅]).2.map
      fun bs => (bs.filter isRepeatedHigh).length) = [0, 0, 0, 1, 1] := by
  obtain ⟨h₁, k₁⟩ := hp e₁ (by simp)
  obtain ⟨h₂, k₂⟩ := hp e₂ (by simp)
  obtain ⟨h₃, k₃⟩ := hp e₃ (by simp)
  obtain ⟨h₄, k₄⟩ := hp e₄ (by simp)
  obtain ⟨h₅, k₅⟩ := hp e₅ (by simp)
  obtain ⟨t₁, ht₁⟩ := Option.isSome_iff_exists.mp h₁
  obtain ⟨t₂, ht₂⟩ := Option.isSome_iff_exists.mp h₂
  obtain ⟨t₃, ht₃⟩ := Option.isSome_iff_exists.mp h₃
  obtain ⟨t₄, ht₄⟩ := Option.isSome_iff_exists.mp h₄
  obtain ⟨t₅, ht₅⟩ := Option.isSome_iff_exists.mp h₅
  have c₁ : getAssocD (analyze_event cfg {} e₁).1.error_counts k 0 = 1 := by
    have h := analyze_event_count_incr cfg {} e₁ t₁ ht₁
    rw [k₁] at h
    simpa [getAssocD, getAssoc?] using h
  have c₂ : getAssocD
      (analyze_event cfg (analyze_event cfg {} e₁).1 e₂).1.error_counts k 0 = 2 := by
    have h := analyze_event_count_incr cfg (analyze_event cfg {} e₁).1 e₂ t₂ ht₂
    rw [k₂, c₁] at h
    exact h
  have c₃ : getAssocD
      (analyze_event cfg (analyze_event cfg (analyze_event cfg {} e₁).1 e₂).1
        e₃).1.error_counts k 0 = 3 := by
    have h := analyze_event_count_incr cfg
      (analyze_event cfg (analyze_event cfg {} e₁).1 e₂).1 e₃ t₃ ht₃
    rw [k₃, c₂] at h
    exact h
  have c₄ : getAssocD
      (analyze_event cfg (analyze_event cfg (analyze_event cfg
        (analyze_event cfg {} e₁).1 e₂).1 e₃).1 e₄).1.error_counts k 0 = 4 := by
    have h := analyze_event_count_incr cfg
      (analyze_event cfg (analyze_event cfg (analyze_event cfg {} e₁).1 e₂).1
        e₃).1 e₄ t₄ ht₄
    rw [k₄, c₃] at h
    exact h
  have r₁ := analyze_event_repeated_len cfg {} e₁ t₁ ht₁
  rw [k₁] at r₁
  have r₂ := analyze_event_repeated_len cfg (analyze_event cfg {} e₁).1 e₂ t₂ ht₂
  rw [k₂, c₁] at r₂
  have r₃ := analyze_event_repeated_len cfg
    (analyze_event cfg (analyze_event cfg {} e₁).1 e₂).1 e₃ t₃ ht₃
  rw [k₃, c₂] at r₃
  have r₄ := analyze_event_repeated_len cfg
    (analyze_event cfg (analyze_event cfg (analyze_event cfg {} e₁).1 e₂).1
      e₃).1 e₄ t₄ ht₄
  rw [k₄, c₃] at r₄
  have r₅ := analyze_event_repeated_len cfg
    (analyze_event cfg (analyze_event cfg (analyze_event cfg
      (analyze_event cfg {} e₁).1 e₂).1 e₃).1 e₄).1 e₅ t₅ ht₅
  rw [k₅, c₄] at r₅
  simp only [analyzeSeq, List.map_cons, List.map_nil]
  rw [r₁, r₂, r₃, r₄, r₅]
  simp [getAssocD, getAssoc?]

/-- C6: `analyze_event` increments `error_counts[source:level]` by exactly
one for every analyzed event with a parseable timestamp, regardless of the
event's level, and emits a `repeated_error` finding of severity `high`
exactly when the updated count strictly exceeds 3; hence five events
sharing one `source:level` pair, analyzed from a fresh state, produce
exactly two `repeated_error` findings, on events four and five. -/
theorem C6_repeated_error_rule :
    (∀ (cfg : DetectorConfig) (st : DetectorState) (e : StreamMessage) (t : Int),
        parseEventTimestamp e.fields = some t →
          getAssocD (analyze_event cfg st e).1.error_counts (errKey e) 0
              = getAssocD st.error_counts (errKey e) 0 + 1
            ∧ ((analyze_event cfg st e).2.filter isRepeatedHigh).length
              = if 3 < getAssocD st.error_counts (errKey e) 0 + 1 then 1 else 0)
      ∧ ∀ (cfg : DetectorConfig) (e₁ e₂ e₃ e₄ e₅ : StreamMessage) (k : String),
          (∀ e ∈ [e₁, e₂, e₃, e₄, e₅],
            (parseEventTimestamp e.fields).isSome ∧ errKey e = k) →
          ((analyzeSeq cfg {} [e₁, e₂, e₃, e₄, e₅]).2.map
            fun bs => (bs.filter isRepeatedHigh).length) = [0, 0, 0, 1, 1] :=
  ⟨fun cfg st e t h =>
    ⟨analyze_event_count_incr cfg st e t h,
     analyze_event_repeated_len cfg st e t h⟩,
   fun cfg e₁ e₂ e₃ e₄ e₅ k hp => analyzeSeq_five_same_key cfg e₁ e₂ e₃ e₄ e₅ k hp⟩

/-- Five concrete events sharing `source:level = svc:INFO`. -/
def wEv (i : Nat) (eid ts : String) : StreamMessage :=
  { stream_id := i, fields := wFields eid ts }

/-- Witness for C6 on five concrete same-key events. -/
theorem C6_repeated_error_rule_witness :
    ((analyzeSeq {} {} [wEv 1 "e1" "2025-01-01T10:00:00Z",
        wEv 2 "e2" "2025-01-01T10:00:01Z", wEv 3 "e3" "2025-01-01T10:00:02Z",
        wEv 4 "e4" "2025-01-01T10:00:03Z",
        wEv 5 "e5" "2025-01-01T10:00:04Z"]).2.map
      fun bs => (bs.filter isRepeatedHigh).length) = [0, 0, 0, 1, 1] :=
  C6_repeated_error_rule.2 {} (wEv 1 "e1" "2025-01-01T10:00:00Z")
    (wEv 2 "e2" "2025-01-01T10:00:01Z") (wEv 3 "e3" "2025-01-01T10:00:02Z")
    (wEv 4 "e4" "2025-01-01T10:00:03Z") (wEv 5 "e5" "2025-01-01T10:00:04Z")
    "svc:INFO" (by decide)

/-- An event whose timestamp does not parse. -/
def wBadFields : Fields := [("event_id", "X"), ("timestamp", "not-a-timestamp")]

/-- C7 counterexample: for an event with an unparseable timestamp the
detector indeed returns no findings and leaves its state unchanged, but the
Replayer does not "still process" it — `execute_replay` parses every fetched
timestamp inside its sort key, the `ValueError` reaches the top-level
handler, and the run fails with nothing processed or acknowledged. -/
theorem C7_counterexample :
    analyze_event {} {} { stream_id := 1, fields := wBadFields } = ({}, [])
      ∧ (execute_replay {} {} 10 none [(1, wBadFields)] none).status = "failed"
      ∧ (execute_replay {} {} 10 none [(1, wBadFields)] none).acked = [] :=
  ⟨rfl, rfl, rfl⟩

/-- C7 amended: when an event's timestamp is missing or unparseable,
`analyze_event` returns no findings and leaves the detector state unchanged
(after logging a warning); however `execute_replay` computes the same parse
inside its sort key, so a fetched batch containing such an event makes the
whole run fail (session marked `failed`) — the event is not processed and
nothing in the batch is acknowledged. -/
theorem C7_unparseable_timestamp :
    (∀ (dc : DetectorConfig) (st : DetectorState) (e : StreamMessage),
        parseEventTimestamp e.fields = none → analyze_event dc st e = (st, []))
      ∧ ∀ (rcfg : ReplayConfig) (dc : DetectorConfig) (ce : Nat)
          (mb : Option Nat) (stream : List (Nat × Fields))
          (cp : Option Checkpoint) (e : StreamMessage),
          e ∈ fetchedBatch rcfg mb stream cp →
          parseEventTimestamp e.fields = none →
          execute_replay rcfg dc ce mb stream cp = failedOutcome := by
  constructor
  · intro dc st e h
    simp [analyze_event, h]
  · intro rcfg dc ce mb stream cp e hmem hpe
    have hkey : sortKey? e = none := by
      simp [sortKey?, hpe]
    have hnall : ¬ ((fetchedBatch rcfg mb stream cp).all
        fun e => (sortKey? e).isSome) := by
      intro hall
      have := List.all_eq_true.mp hall e hmem
      rw [hkey] at this
      exact absurd this (by simp)
    have hsort : sortBatch (fetchedBatch rcfg mb stream cp) = none := by
      simp only [sortBatch, if_neg hnall]
    simp only [execute_replay, hsort]

/-- Witness for C7's amended theorem: the detector half at the concrete bad
event and the replayer half at the one-entry stream holding it. -/
theorem C7_unparseable_timestamp_witness :
    analyze_event {} {} { stream_id := 1, fields := wBadFields } = ({}, [])
      ∧ execute_replay {} {} 10 none [(1, wBadFields)] none = failedOutcome :=
  ⟨C7_unparseable_timestamp.1 {} {} { stream_id := 1, fields := wBadFields } rfl,
   C7_unparseable_timestamp.2 {} {} 10 none [(1, wBadFields)] none
     { stream_id := 1, fields := wBadFields } (by decide) rfl⟩

/-- C8: the detector is deterministic — from identical initial
`DetectorState`s, analyzing the same ordered event sequence produces
identical states and identical finding lists, field for field. -/
theorem C8_detector_deterministic (cfg : DetectorConfig)
    (st₁ st₂ : DetectorState) (es : List StreamMessage) (h : st₁ = st₂) :
    analyzeSeq cfg st₁ es = analyzeSeq cfg st₂ es := by
  rw [h]

/-- Witness for C8 at a concrete two-event sequence. -/
theorem C8_detector_deterministic_witness :
    analyzeSeq {} {} [wEv 1 "e1" "2025-01-01T10:00:00Z",
        wEv 2 "e2" "2025-01-01T10:00:01Z"]
      = analyzeSeq {} {} [wEv 1 "e1" "2025-01-01T10:00:00Z",
          wEv 2 "e2" "2025-01-01T10:00:01Z"] :=
  C8_detector_deterministic {} {} {}
    [wEv 1 "e1" "2025-01-01T10:00:00Z", wEv 2 "e2" "2025-01-01T10:00:01Z"] rfl

/-- An unbounded range read from the `"0"` sentinel returns the whole
stream. -/
theorem read_range_zero_none (stream : List (Nat × Fields)) :
    read_messages_by_range stream 0 none none
      = stream.map fun p => { stream_id := p.1, fields := p.2 } := by
  unfold read_messages_by_range
  rw [List.filter_eq_self.mpr]
  intro p _
  simp

/-- A one-entry stream with a parseable timestamp. -/
def wStream1 : List (Nat × Fields) :=
  [(1, wFields "A" "2025-01-01T10:00:00Z")]

/-- C9 counterexample: on a one-entry stream the first run acknowledges
every entry, yet the second back-to-back run reports `total_events = 1`,
not `0` — `XRANGE` ignores consumer-group acks and the resume id is read
inclusively. -/
theorem C9_counterexample :
    (execute_replay {} {} 10 none wStream1 none).acked = [1]
      ∧ (execute_replay {} {} 10 none wStream1
          (execute_replay {} {} 10 none wStream1 none).finalCheckpoint).status
          = "completed"
      ∧ (execute_replay {} {} 10 none wStream1
          (execute_replay {} {} 10 none wStream1 none).finalCheckpoint).total_events
          = 1
      ∧ ¬ (execute_replay {} {} 10 none wStream1
          (execute_replay {} {} 10 none wStream1 none).finalCheckpoint).total_events
          = 0 :=
  ⟨rfl, rfl, rfl, by decide⟩

/-- C9 amended: running `execute_replay` twice back-to-back on a nonempty
fully-acknowledged stream leaves the second run `completed`, but with
`total_events ≥ 1` rather than `0`: acknowledgements do not affect `XRANGE`
reads, and the second run re-reads inclusively from the final checkpoint's
`current_message_id` (the last *sorted* event's id), so at least that entry
is fetched again. -/
theorem C9_second_run_rereads (cfg : ReplayConfig) (detCfg : DetectorConfig)
    (ce : Nat) (stream : List (Nat × Fields))
    (hend : cfg.end_ts = none) (hne : stream ≠ [])
    (hall : ∀ p ∈ stream, (sortKey? { stream_id := p.1, fields := p.2 }).isSome) :
    (execute_replay cfg detCfg ce none stream
        (execute_replay cfg detCfg ce none stream none).finalCheckpoint).status
        = "completed"
      ∧ 1 ≤ (execute_replay cfg detCfg ce none stream
          (execute_replay cfg detCfg ce none stream none).finalCheckpoint).total_events := by
  have hbatch1 : fetchedBatch cfg none stream none
      = stream.map fun p => { stream_id := p.1, fields := p.2 } := by
    rw [fetchedBatch, hend]
    exact read_range_zero_none stream
  have hall1 : ∀ e ∈ fetchedBatch cfg none stream none, (sortKey? e).isSome := by
    intro e he
    rw [hbatch1] at he
    obtain ⟨p, hp, rfl⟩ := List.mem_map.mp he
    exact hall p hp
  have hsort1 := sortBatch_isSome_of_all hall1
  have hlen1 : ((fetchedBatch cfg none stream none).insertionSort eventLEP).length
      = stream.length := by
    rw [(List.perm_insertionSort eventLEP _).length_eq, hbatch1, List.length_map]
  have hne1 : (fetchedBatch cfg none stream none).insertionSort eventLEP ≠ [] := by
    intro h0
    rw [h0] at hlen1
    exact hne (List.eq_nil_of_length_eq_zero hlen1.symm)
  obtain ⟨lastE, hlast⟩ : ∃ l,
      ((fetchedBatch cfg none stream none).insertionSort eventLEP).getLast?
        = some l := by
    rcases h : ((fetchedBatch cfg none stream none).insertionSort eventLEP).getLast?
      with _ | l
    · exact absurd (List.getLast?_eq_none_iff.mp h) hne1
    · exact ⟨l, rfl⟩
  obtain ⟨c, hc, hcm⟩ : ∃ c,
      (execute_replay cfg detCfg ce none stream none).finalCheckpoint = some c
        ∧ c.current_message_id = lastE.stream_id := by
    simp only [execute_replay, hsort1, hlast]
    exact ⟨_, rfl, rfl⟩
  rw [hc]
  have hstream_mem : (lastE.stream_id, lastE.fields) ∈ stream := by
    have h1 : lastE ∈ (fetchedBatch cfg none stream none).insertionSort eventLEP :=
      List.mem_of_mem_getLast? hlast
    have h2 := (List.perm_insertionSort eventLEP _).mem_iff.mp h1
    rw [hbatch1] at h2
    obtain ⟨p, hp, hpe⟩ := List.mem_map.mp h2
    cases hpe
    simpa using hp
  have hmem2 : lastE ∈ fetchedBatch cfg none stream (some c) := by
    rw [fetchedBatch, hend]
    exact mem_read_range.mpr ⟨hstream_mem, by rw [hcm]⟩
  have hall2 : ∀ e ∈ fetchedBatch cfg none stream (some c), (sortKey? e).isSome := by
    intro e he
    rw [fetchedBatch, hend] at he
    exact hall _ (mem_read_range.mp he).1
  have hsort2 := sortBatch_isSome_of_all hall2
  constructor
  · simp only [execute_replay, hsort2]
  · simp only [execute_replay, hsort2]
    rw [(List.perm_insertionSort eventLEP _).length_eq]
    exact List.length_pos_of_mem hmem2

/-- Witness for C9's amended theorem at the one-entry stream. -/
theorem C9_second_run_rereads_witness :
    (execute_replay {} {} 10 none wStream1
        (execute_replay {} {} 10 none wStream1 none).finalCheckpoint).status
        = "completed"
      ∧ 1 ≤ (execute_replay {} {} 10 none wStream1
          (execute_replay {} {} 10 none wStream1 none).finalCheckpoint).total_events :=
  C9_second_run_rereads {} {} 10 wStream1 rfl (by decide) (by decide)

/-- A session for a different replay id, in front of the matching one. -/
def wOther : ReplaySession :=
  { session_id := "s-0", replay_id := "r0", config := [("mode", "dry-run")] }

/-- C10: a call `update_session_status(replay_id, status)` with no extra
keyword attributes mutates only the matched session's `status` field — and
`started_at`, exactly when the new status is `"running"` — leaving
`session_id`, `replay_id`, `config`, `events_processed`, `total_events` and
`progress` unchanged, and leaving every other session untouched. -/
theorem C10_status_update_frame (pre : List ReplaySession) (s : ReplaySession)
    (rest : List ReplaySession) (status : String) (now : Int)
    (hpre : ∀ p ∈ pre, p.replay_id ≠ s.replay_id) :
    update_session_status (pre ++ s :: rest) s.replay_id status now
      = (pre ++ { s with
            status := status,
            started_at := if status = "running" then some now else s.started_at }
          :: rest, true) := by
  induction pre with
  | nil => simp [update_session_status]
  | cons p ps ih =>
    have hp : p.replay_id ≠ s.replay_id := hpre p (by simp)
    have ih' := ih fun q hq => hpre q (by simp [hq])
    simp only [List.cons_append, update_session_status, if_neg hp,
      List.append_eq, ih']

/-- Witness for C10: a non-running status update behind a non-matching
session. -/
theorem C10_status_update_frame_witness :
    update_session_status ([wOther] ++ wSession :: []) wSession.replay_id
        "stopped" 7
      = ([wOther] ++ { wSession with
            status := "stopped",
            started_at := if "stopped" = "running" then some 7
              else wSession.started_at } :: [], true) :=
  C10_status_update_frame [wOther] wSession [] "stopped" 7 (by decide)

end ReplayEngine
